import Mathlib

/-!
Shallow embedding of the carbon-footprint tracker `environmental_ai.py`
(class `EnvironmentalAIAgent`).  Numeric activity data is modelled over
the rationals, so that the Python `round(x, 2)` becomes the exact
round-to-nearest-hundredth on the rationals.  Timestamps are modelled as
integers ordered as the ISO-8601 strings of the source are (the source
compares timestamps of one common format lexicographically, which agrees
with instant order).  Randomness (`np.random.randint`) is modelled as an
explicit stream of naturals consumed left to right, and the unbounded
`while` loop of `get_personalized_tips` is modelled with explicit fuel.
File persistence is modelled by counting the `_save_data` calls a
tracking operation performs.
-/

namespace EnvironmentalAI

/-- Python `round(x, 2)` on exact rationals: round to the nearest
multiple of 1/100. -/
def round2 (q : ℚ) : ℚ := (round (q * 100) : ℤ) / 100

/-- A rational that is a whole number of hundredths, i.e. a value of the
form produced by `round(x, 2)`. -/
def is2dp (q : ℚ) : Prop := ∃ n : ℤ, q = (n : ℚ) / 100

/-- One entry of the `transportation` log. -/
structure TransportEntry where
  date : Int
  mode : String
  distance : ℚ
  passengers : Int
  emissions : ℚ
  deriving DecidableEq

/-- One entry of the `energy` log. -/
structure EnergyEntry where
  date : Int
  etype : String
  amount : ℚ
  unit : String
  emissions : ℚ
  deriving DecidableEq

/-- One input food item passed to `track_food`. -/
structure FoodItem where
  ftype : String
  amount : ℚ
  local_ : Bool
  organic : Bool
  deriving DecidableEq

/-- One element of the `tracked_items` list inside a food entry. -/
structure TrackedFoodItem where
  ftype : String
  amount : ℚ
  local_ : Bool
  organic : Bool
  emissions : ℚ
  deriving DecidableEq

/-- One (composite) entry of the `food` log. -/
structure FoodEntry where
  date : Int
  items : List TrackedFoodItem
  total_emissions : ℚ
  deriving DecidableEq

/-- One entry of the `purchases` log. -/
structure PurchaseEntry where
  date : Int
  category : String
  description : String
  price : ℚ
  eco_friendly : Bool
  emissions : ℚ
  deriving DecidableEq

/-- The four append-only logs held in `carbon_footprint.json`
(`self.carbon_data`). -/
structure CarbonData where
  transportation : List TransportEntry
  energy : List EnergyEntry
  food : List FoodEntry
  purchases : List PurchaseEntry
  deriving DecidableEq

/-- The empty record store (the default created for a new user). -/
def emptyCarbonData : CarbonData := ⟨[], [], [], []⟩

/-- Result of one tracking call: the message returned to the caller, the
entry recorded (none when the input was rejected), the record store
after the call, and how many `_save_data` writes were performed. -/
structure TrackStep (α : Type) where
  message : String
  entry : Option α
  newData : CarbonData
  saves : Nat
  deriving DecidableEq

/-- `emissions_factors` table of `track_transportation` (kg CO2 per km). -/
def transportation_factors : List (String × ℚ) :=
  [("car", 0.192), ("bus", 0.105), ("train", 0.041),
   ("bicycle", 0), ("walk", 0), ("plane", 0.255)]

/-- `track_transportation(mode, distance, passengers)`. -/
def track_transportation (st : CarbonData) (now : Int)
    (mode : String) (distance : ℚ) (passengers : Int) :
    TrackStep TransportEntry :=
  match transportation_factors.lookup mode with
  | none => ⟨"Sorry, I do not recognize that as a transportation mode.",
             none, st, 0⟩
  | some factor =>
    let emissions : ℚ :=
      if mode = "car" then factor * distance / max 1 (passengers : ℚ)
      else factor * distance
    let entry : TransportEntry :=
      ⟨now, mode, distance, passengers, round2 emissions⟩
    ⟨"Tracked transportation with carbon impact recorded.",
     some entry,
     { st with transportation := st.transportation ++ [entry] }, 1⟩

/-- `emissions_factors` table of `track_energy_usage` (kg CO2 per kWh). -/
def energy_factors : List (String × ℚ) :=
  [("electricity", 0.233), ("natural_gas", 0.181), ("heating_oil", 0.249),
   ("propane", 0.215), ("renewable", 0.015)]

/-- `track_energy_usage(type, amount, unit)`, including the
therms-to-kWh conversion for natural gas. -/
def track_energy_usage (st : CarbonData) (now : Int)
    (etype : String) (amount : ℚ) (unit : String) :
    TrackStep EnergyEntry :=
  match energy_factors.lookup etype with
  | none => ⟨"Sorry, I do not recognize that as an energy type.", none, st, 0⟩
  | some factor =>
    let converted : ℚ × String :=
      if unit = "therms" ∧ etype = "natural_gas" then (amount * 29.3001, "kWh")
      else (amount, unit)
    if converted.2 ≠ "kWh" then
      ⟨"I currently only support kWh units.", none, st, 0⟩
    else
      let entry : EnergyEntry :=
        ⟨now, etype, converted.1, converted.2, round2 (factor * converted.1)⟩
      ⟨"Tracked energy usage with carbon impact recorded.",
       some entry, { st with energy := st.energy ++ [entry] }, 1⟩

/-- `emissions_factors` table of `track_food` (kg CO2e per kg). -/
def food_factors : List (String × ℚ) :=
  [("beef", 27.0), ("lamb", 39.2), ("pork", 12.1), ("chicken", 6.9),
   ("fish", 6.1), ("eggs", 4.8), ("rice", 2.7), ("milk", 1.9),
   ("cheese", 13.5), ("vegetables", 2.0), ("fruits", 1.1),
   ("beans", 2.0), ("nuts", 2.3)]

/-- The unrounded emissions of one food item: `none` when the type is
unrecognized (the item is skipped), otherwise the base factor times the
amount with the local (x0.8) and organic (x0.9) modifiers applied in
sequence, as in the loop body of `track_food`. -/
def food_item_emissions (it : FoodItem) : Option ℚ :=
  (food_factors.lookup it.ftype).map (fun factor =>
    let base := factor * it.amount
    let withLocal := if it.local_ then base * 0.8 else base
    if it.organic then withLocal * 0.9 else withLocal)

/-- `track_food(items)`: recognized items are accumulated into
`tracked_items` (with per-item rounding) and into the running unrounded
`total_emissions`; unrecognized items are skipped with `continue`. -/
def track_food (st : CarbonData) (now : Int) (items : List FoodItem) :
    TrackStep FoodEntry :=
  let tracked : List TrackedFoodItem :=
    items.filterMap (fun it =>
      (food_item_emissions it).map (fun e =>
        ⟨it.ftype, it.amount, it.local_, it.organic, round2 e⟩))
  let total : ℚ := (items.filterMap food_item_emissions).sum
  let entry : FoodEntry := ⟨now, tracked, round2 total⟩
  ⟨"Tracked food items with total carbon impact recorded.",
   some entry, { st with food := st.food ++ [entry] }, 1⟩

/-- `emissions_factors` table of `track_purchase` (kg CO2e per dollar). -/
def purchase_factors : List (String × ℚ) :=
  [("clothing", 0.5), ("electronics", 0.7), ("furniture", 0.8),
   ("household", 0.4), ("hobby", 0.3)]

/-- Python `str.lower()`, modelled as lower-casing every character. -/
def lowerString (s : String) : String := ⟨s.data.map Char.toLower⟩

/-- The category normalization of `track_purchase`: lower-case, then
fall back to `"household"` when the result is not in the table. -/
def normalize_purchase_category (category : String) : String :=
  let c := lowerString category
  if (purchase_factors.lookup c).isSome then c else "household"

/-- `track_purchase(category, description, price, eco_friendly)`. -/
def track_purchase (st : CarbonData) (now : Int)
    (category description : String) (price : ℚ) (eco_friendly : Bool) :
    TrackStep PurchaseEntry :=
  let cat := normalize_purchase_category category
  let factor := (purchase_factors.lookup cat).getD 0
  let emissions0 := factor * price
  let emissions := if eco_friendly then emissions0 * 0.7 else emissions0
  let entry : PurchaseEntry :=
    ⟨now, cat, description, price, eco_friendly, round2 emissions⟩
  ⟨"Tracked purchase with estimated carbon impact recorded.",
   some entry, { st with purchases := st.purchases ++ [entry] }, 1⟩

/-- The `week`/`month`/`year` window lengths (in days) of
`get_carbon_footprint_summary`; `none` for any other keyword. -/
def period_days (time_period : String) : Option Int :=
  if time_period = "week" then some 7
  else if time_period = "month" then some 30
  else if time_period = "year" then some 365
  else none

/-- The summary mapping (keys transportation, energy, food, purchases,
total). -/
structure Summary where
  transportation : ℚ
  energy : ℚ
  food : ℚ
  purchases : ℚ
  total : ℚ
  deriving DecidableEq

/-- `get_carbon_footprint_summary(time_period)`: an error string for an
unsupported period, otherwise per-category sums over the entries whose
date is at least `now` minus the window, a grand total, and rounding of
every value. -/
def get_carbon_footprint_summary (st : CarbonData) (now : Int)
    (time_period : String) : String ⊕ Summary :=
  match period_days time_period with
  | none => Sum.inl ("Unsupported time period: " ++ time_period ++
      ". Please use week, month, or year.")
  | some days =>
    let start := now - days
    let t := ((st.transportation.filter (fun e => start ≤ e.date)).map
      (fun e => e.emissions)).sum
    let en := ((st.energy.filter (fun e => start ≤ e.date)).map
      (fun e => e.emissions)).sum
    let f := ((st.food.filter (fun e => start ≤ e.date)).map
      (fun e => e.total_emissions)).sum
    let p := ((st.purchases.filter (fun e => start ≤ e.date)).map
      (fun e => e.emissions)).sum
    let total := t + en + f + p
    Sum.inr ⟨round2 t, round2 en, round2 f, round2 p, round2 total⟩

/-- Update the value stored at `key` in an association list, leaving the
key structure untouched (Python dict item assignment for an existing
key). -/
def update_assoc {α : Type} (l : List (String × α)) (key : String) (val : α) :
    List (String × α) :=
  l.map (fun kv => if kv.1 = key then (key, val) else kv)

/-- `set_user_preferences(preferences)`: every supplied key that already
exists in the stored preferences is assigned the supplied value; other
keys are ignored. -/
def set_user_preferences {α : Type} (prefs updates : List (String × α)) :
    List (String × α) :=
  updates.foldl (fun acc kv =>
    if (acc.lookup kv.1).isSome then update_assoc acc kv.1 kv.2 else acc) prefs

/-- The static tips database of `_load_tips`. -/
def eco_tips : List (String × List String) :=
  [("transportation",
    ["Consider carpooling to reduce emissions",
     "Try using public transportation once a week",
     "Combine errands to reduce total driving distance",
     "Consider an electric vehicle for your next car purchase",
     "Keep your tires properly inflated to improve fuel efficiency"]),
   ("energy",
    ["Switch to LED light bulbs to reduce energy consumption",
     "Unplug electronics when not in use to avoid phantom energy",
     "Use a smart thermostat to optimize heating and cooling",
     "Air dry clothes instead of using a dryer when possible",
     "Consider adding insulation to your home to reduce energy needs"]),
   ("food",
    ["Try incorporating one meatless meal per week",
     "Buy local produce to reduce transportation emissions",
     "Plan meals to reduce food waste",
     "Compost food scraps instead of sending to landfill",
     "Choose seasonal fruits and vegetables"]),
   ("purchases",
    ["Consider secondhand items before buying new",
     "Look for products with minimal packaging",
     "Invest in quality items that last longer",
     "Repair items when possible instead of replacing",
     "Choose products made from recycled materials"])]

/-- The tip pool of one category (empty for an unknown category). -/
def tipsOf (c : String) : List String := (eco_tips.lookup c).getD []

/-- The category/value pairs of the current month footprint, in dict
insertion order, with the total dropped (the list comprehension feeding
`sorted` in `get_personalized_tips`). -/
def month_footprint_pairs (st : CarbonData) (now : Int) : List (String × ℚ) :=
  match get_carbon_footprint_summary st now "month" with
  | Sum.inl _ => []
  | Sum.inr s =>
    [("transportation", s.transportation), ("energy", s.energy),
     ("food", s.food), ("purchases", s.purchases)]

/-- The tracked categories sorted by current-month emissions,
descending and stable (Python `sorted(..., reverse=True)`). -/
def sorted_categories (st : CarbonData) (now : Int) : List String :=
  ((month_footprint_pairs st now).mergeSort
    (fun a b => decide (b.2 ≤ a.2))).map Prod.fst

/-- The first phase of `get_personalized_tips`: walk the categories in
decreasing order of emissions, and for each one that is in the tips
database and in the allowed set, append one randomly chosen tip of its
pool, stopping as soon as `count` tips are selected.  The `Nat` result
is the next unused index of the randomness stream. -/
def prioritized_tips : List String → List String → Nat → (Nat → Nat) → Nat →
    List String → List String × Nat
  | [], _, _, _, k, acc => (acc, k)
  | c :: rest, allowed, count, rng, k, acc =>
    match eco_tips.lookup c with
    | none => prioritized_tips rest allowed count rng k acc
    | some tips =>
      if c ∈ allowed then
        if tips.length ≠ 0 then
          if count ≤ (acc ++ [tips.getD (rng k % tips.length) ""]).length then
            (acc ++ [tips.getD (rng k % tips.length) ""], k + 1)
          else
            prioritized_tips rest allowed count rng (k + 1)
              (acc ++ [tips.getD (rng k % tips.length) ""])
        else prioritized_tips rest allowed count rng k acc
      else prioritized_tips rest allowed count rng k acc

/-- The second phase of `get_personalized_tips`: the
`while len(selected_tips) < count` fill loop, drawing a random allowed
category and then a random tip of its pool, appending it only when it is
not already selected.  The source loop has no bound; here `fuel` counts
loop iterations, so the unbounded loop terminates with fewer than
`count` tips exactly when every fuel bound does. -/
def fill_tips (allowed : List String) (count : Nat) (rng : Nat → Nat) :
    Nat → Nat → List String → List String
  | 0, _, acc => acc
  | fuel + 1, k, acc =>
    if acc.length < count then
      if (tipsOf (allowed.getD (rng k % allowed.length) "")).length ≠ 0 then
        if (tipsOf (allowed.getD (rng k % allowed.length) "")).getD
            (rng (k + 1) %
              (tipsOf (allowed.getD (rng k % allowed.length) "")).length) ""
            ∈ acc then
          fill_tips allowed count rng fuel (k + 2) acc
        else
          fill_tips allowed count rng fuel (k + 2)
            (acc ++ [(tipsOf (allowed.getD (rng k % allowed.length) "")).getD
              (rng (k + 1) %
                (tipsOf (allowed.getD (rng k % allowed.length) "")).length) ""])
      else fill_tips allowed count rng fuel (k + 1) acc
    else acc

/-- `get_personalized_tips(category, count)`: an error list for an
unknown category filter, otherwise the prioritized phase followed by
the fill loop over the allowed categories. -/
def get_personalized_tips (st : CarbonData) (now : Int)
    (category : Option String) (count : Nat) (rng : Nat → Nat) (fuel : Nat) :
    List String :=
  match category with
  | some c =>
    if (eco_tips.lookup c).isNone then
      ["Sorry, I do not have tips for that category."]
    else
      let pr := prioritized_tips (sorted_categories st now) [c] count rng 0 []
      fill_tips [c] count rng fuel pr.2 pr.1
  | none =>
    let pr := prioritized_tips (sorted_categories st now)
      (eco_tips.map Prod.fst) count rng 0 []
    fill_tips (eco_tips.map Prod.fst) count rng fuel pr.2 pr.1

/-- The transportation emissions recorded within the window
[now - days, now], as summed by `get_carbon_footprint_summary`. -/
def window_transport_sum (st : CarbonData) (start : Int) : ℚ :=
  ((st.transportation.filter (fun e => start ≤ e.date)).map
    (fun e => e.emissions)).sum

/-- The energy emissions recorded within the window. -/
def window_energy_sum (st : CarbonData) (start : Int) : ℚ :=
  ((st.energy.filter (fun e => start ≤ e.date)).map (fun e => e.emissions)).sum

/-- The food emissions recorded within the window (composite entries
contribute their `total_emissions`). -/
def window_food_sum (st : CarbonData) (start : Int) : ℚ :=
  ((st.food.filter (fun e => start ≤ e.date)).map
    (fun e => e.total_emissions)).sum

/-- The purchase emissions recorded within the window. -/
def window_purchases_sum (st : CarbonData) (start : Int) : ℚ :=
  ((st.purchases.filter (fun e => start ≤ e.date)).map
    (fun e => e.emissions)).sum

theorem round2_of_is2dp {q : ℚ} (h : is2dp q) : round2 q = q := by
  obtain ⟨n, rfl⟩ := h
  unfold round2
  rw [div_mul_cancel₀ _ (by norm_num : (100 : ℚ) ≠ 0), round_intCast]

theorem is2dp_round2 (q : ℚ) : is2dp (round2 q) := ⟨round (q * 100), rfl⟩

theorem is2dp_zero : is2dp 0 := ⟨0, by norm_num⟩

theorem is2dp_add {q r : ℚ} (hq : is2dp q) (hr : is2dp r) : is2dp (q + r) := by
  obtain ⟨n, rfl⟩ := hq
  obtain ⟨m, rfl⟩ := hr
  exact ⟨n + m, by push_cast; ring⟩

theorem is2dp_listSum {l : List ℚ} (h : ∀ q ∈ l, is2dp q) : is2dp l.sum := by
  induction l with
  | nil => simpa using is2dp_zero
  | cons a t ih =>
    rw [List.sum_cons]
    exact is2dp_add (h a (List.mem_cons_self a t))
      (ih (fun q hq => h q (List.mem_cons_of_mem a hq)))

/-- Every emissions value a tracking call records is a whole number of
hundredths, since it is produced by `round(x, 2)`: the well-formedness
assumption of `summary_total_spec` is an invariant of the record store. -/
theorem tracked_emissions_is2dp (st : CarbonData) (now : Int) :
    (∀ mode distance passengers e,
      (track_transportation st now mode distance passengers).entry = some e →
      is2dp e.emissions)
    ∧ (∀ etype amount unit e,
      (track_energy_usage st now etype amount unit).entry = some e →
      is2dp e.emissions)
    ∧ (∀ items e, (track_food st now items).entry = some e →
      is2dp e.total_emissions)
    ∧ (∀ category description price eco e,
      (track_purchase st now category description price eco).entry = some e →
      is2dp e.emissions) := by
  refine ⟨fun mode distance passengers e he => ?_,
    fun etype amount unit e he => ?_, fun items e he => ?_,
    fun category description price eco e he => ?_⟩
  · unfold track_transportation at he
    rcases h : transportation_factors.lookup mode with _ | factor <;> rw [h] at he
    · exact absurd he (by simp)
    · simp only [Option.some.injEq] at he
      subst he
      exact is2dp_round2 _
  · unfold track_energy_usage at he
    rcases h : energy_factors.lookup etype with _ | factor <;> simp only [h] at he
    · exact absurd he (by simp)
    · split at he <;> split at he <;>
        first
          | exact Option.noConfusion he
          | (simp only [Option.some.injEq] at he
             subst he
             exact is2dp_round2 _)
  · unfold track_food at he
    simp only [Option.some.injEq] at he
    subst he
    exact is2dp_round2 _
  · unfold track_purchase at he
    simp only [Option.some.injEq] at he
    subst he
    exact is2dp_round2 _

/-- Claim C1: for each supported period the summary is the rounded
per-category sum over the entries dated inside the window, and the
returned total equals the exact sum of the four category values as
returned, provided every stored emissions value is a whole number of
hundredths (which `tracked_emissions_is2dp` shows holds of every entry
the trackers record). -/
theorem summary_total_spec (st : CarbonData) (now : Int) (p : String)
    (days : Int) (hp : period_days p = some days)
    (ht : ∀ e ∈ st.transportation, is2dp e.emissions)
    (he : ∀ e ∈ st.energy, is2dp e.emissions)
    (hf : ∀ e ∈ st.food, is2dp e.total_emissions)
    (hpu : ∀ e ∈ st.purchases, is2dp e.emissions) :
    get_carbon_footprint_summary st now p =
      Sum.inr ⟨round2 (window_transport_sum st (now - days)),
               round2 (window_energy_sum st (now - days)),
               round2 (window_food_sum st (now - days)),
               round2 (window_purchases_sum st (now - days)),
               round2 (window_transport_sum st (now - days)) +
                 round2 (window_energy_sum st (now - days)) +
                 round2 (window_food_sum st (now - days)) +
                 round2 (window_purchases_sum st (now - days))⟩ := by
  have hT : is2dp (window_transport_sum st (now - days)) := by
    refine is2dp_listSum fun q hq => ?_
    obtain ⟨e, he', rfl⟩ := List.mem_map.mp hq
    exact ht e (List.mem_of_mem_filter he')
  have hE : is2dp (window_energy_sum st (now - days)) := by
    refine is2dp_listSum fun q hq => ?_
    obtain ⟨e, he', rfl⟩ := List.mem_map.mp hq
    exact he e (List.mem_of_mem_filter he')
  have hF : is2dp (window_food_sum st (now - days)) := by
    refine is2dp_listSum fun q hq => ?_
    obtain ⟨e, he', rfl⟩ := List.mem_map.mp hq
    exact hf e (List.mem_of_mem_filter he')
  have hP : is2dp (window_purchases_sum st (now - days)) := by
    refine is2dp_listSum fun q hq => ?_
    obtain ⟨e, he', rfl⟩ := List.mem_map.mp hq
    exact hpu e (List.mem_of_mem_filter he')
  simp only [get_carbon_footprint_summary, hp, Sum.inr.injEq, Summary.mk.injEq]
  refine ⟨rfl, rfl, rfl, rfl, ?_⟩
  show round2 (window_transport_sum st (now - days) +
      window_energy_sum st (now - days) + window_food_sum st (now - days) +
      window_purchases_sum st (now - days)) = _
  rw [round2_of_is2dp (is2dp_add (is2dp_add (is2dp_add hT hE) hF) hP),
    round2_of_is2dp hT, round2_of_is2dp hE, round2_of_is2dp hF,
    round2_of_is2dp hP]

theorem summary_total_spec_witness :
    get_carbon_footprint_summary
        { emptyCarbonData with
          transportation := [⟨0, "car", 10, 1, 1.92⟩] } 0 "week" =
      Sum.inr ⟨round2 (window_transport_sum
          { emptyCarbonData with
            transportation := [⟨0, "car", 10, 1, 1.92⟩] } (0 - 7)),
        round2 (window_energy_sum
          { emptyCarbonData with
            transportation := [⟨0, "car", 10, 1, 1.92⟩] } (0 - 7)),
        round2 (window_food_sum
          { emptyCarbonData with
            transportation := [⟨0, "car", 10, 1, 1.92⟩] } (0 - 7)),
        round2 (window_purchases_sum
          { emptyCarbonData with
            transportation := [⟨0, "car", 10, 1, 1.92⟩] } (0 - 7)),
        round2 (window_transport_sum
            { emptyCarbonData with
              transportation := [⟨0, "car", 10, 1, 1.92⟩] } (0 - 7)) +
          round2 (window_energy_sum
            { emptyCarbonData with
              transportation := [⟨0, "car", 10, 1, 1.92⟩] } (0 - 7)) +
          round2 (window_food_sum
            { emptyCarbonData with
              transportation := [⟨0, "car", 10, 1, 1.92⟩] } (0 - 7)) +
          round2 (window_purchases_sum
            { emptyCarbonData with
              transportation := [⟨0, "car", 10, 1, 1.92⟩] } (0 - 7))⟩ :=
  summary_total_spec
    { emptyCarbonData with transportation := [⟨0, "car", 10, 1, 1.92⟩] }
    0 "week" 7 rfl
    (fun e he => by
      rw [List.mem_singleton] at he
      subst he
      exact ⟨192, by norm_num⟩)
    (fun e he => absurd he (List.not_mem_nil e))
    (fun e he => absurd he (List.not_mem_nil e))
    (fun e he => absurd he (List.not_mem_nil e))

/-- Claim C3: for mode car the recorded emissions are
round(0.192 x D / max(1, P), 2), hence round(0.192 x D / P, 2) whenever
P is at least 1; every other recognized mode records
round(factor x D, 2) independently of the passengers argument, and the
bicycle and walk factors are 0. -/
theorem track_transportation_spec (st : CarbonData) (now : Int) (D : ℚ) :
    (∀ P : Int,
      ((track_transportation st now "car" D P).entry =
        some ⟨now, "car", D, P, round2 (0.192 * D / max 1 (P : ℚ))⟩)
      ∧ ((track_transportation st now "car" D P).newData.transportation =
        st.transportation ++ [⟨now, "car", D, P, round2 (0.192 * D / max 1 (P : ℚ))⟩])
      ∧ (1 ≤ P →
        (track_transportation st now "car" D P).entry =
          some ⟨now, "car", D, P, round2 (0.192 * D / (P : ℚ))⟩))
    ∧ (∀ mode factor, mode ≠ "car" →
        transportation_factors.lookup mode = some factor →
        ∀ P : Int, (track_transportation st now mode D P).entry =
          some ⟨now, mode, D, P, round2 (factor * D)⟩)
    ∧ transportation_factors.lookup "bicycle" = some 0
    ∧ transportation_factors.lookup "walk" = some 0 := by
  refine ⟨fun P => ⟨rfl, rfl, fun hP => ?_⟩, fun mode factor hmode hfac P => ?_, rfl, rfl⟩
  · have hmax : max 1 (P : ℚ) = (P : ℚ) :=
      max_eq_right (by exact_mod_cast hP)
    rw [← hmax]
    rfl
  · simp only [track_transportation, hfac, if_neg hmode]

theorem track_transportation_spec_witness :
    ((track_transportation emptyCarbonData 0 "car" 10 2).entry =
      some ⟨0, "car", 10, 2, round2 (0.192 * 10 / ((2 : Int) : ℚ))⟩)
    ∧ ((track_transportation emptyCarbonData 0 "bus" 10 3).entry =
      some ⟨0, "bus", 10, 3, round2 ((0.105 : ℚ) * 10)⟩) :=
  ⟨((track_transportation_spec emptyCarbonData 0 10).1 2).2.2 (by decide),
   (track_transportation_spec emptyCarbonData 0 10).2.1 "bus" 0.105
     (by decide) rfl 3⟩

/-- Claim C4: tracking natural gas in therms converts the amount by
x29.3001 to kWh before applying the 0.181 per-kWh factor and records an
entry; any other non-kWh unit for a recognized type is rejected with a
message, leaving the store untouched and performing no save. -/
theorem track_energy_usage_spec (st : CarbonData) (now : Int) (amount : ℚ) :
    ((track_energy_usage st now "natural_gas" amount "therms").entry =
      some ⟨now, "natural_gas", amount * 29.3001, "kWh",
            round2 (0.181 * (amount * 29.3001))⟩
     ∧ (track_energy_usage st now "natural_gas" amount "therms").newData.energy =
       st.energy ++ [⟨now, "natural_gas", amount * 29.3001, "kWh",
            round2 (0.181 * (amount * 29.3001))⟩]
     ∧ (track_energy_usage st now "natural_gas" amount "therms").saves = 1)
    ∧ (∀ etype unit, (energy_factors.lookup etype).isSome → unit ≠ "kWh" →
        ¬(unit = "therms" ∧ etype = "natural_gas") →
        track_energy_usage st now etype amount unit =
          ⟨"I currently only support kWh units.", none, st, 0⟩) := by
  refine ⟨⟨rfl, rfl, rfl⟩, fun etype unit hsome hunit hconv => ?_⟩
  obtain ⟨factor, hfac⟩ := Option.isSome_iff_exists.mp hsome
  simp only [track_energy_usage, hfac, if_neg hconv, ne_eq, hunit,
    not_false_eq_true, if_pos]

theorem track_energy_usage_spec_witness :
    ((track_energy_usage emptyCarbonData 0 "natural_gas" 10 "therms").entry =
      some ⟨0, "natural_gas", 10 * 29.3001, "kWh",
            round2 (0.181 * (10 * 29.3001))⟩)
    ∧ (track_energy_usage emptyCarbonData 0 "electricity" 10 "joules" =
        ⟨"I currently only support kWh units.", none, emptyCarbonData, 0⟩) :=
  ⟨(track_energy_usage_spec emptyCarbonData 0 10).1.1,
   (track_energy_usage_spec emptyCarbonData 0 10).2 "electricity" "joules"
     (by decide) (by decide) (by decide)⟩

/-- The sequential modifier application of the `track_food` loop body
equals the closed product form with factors 0.8 and 0.9. -/
theorem food_item_emissions_eq (it : FoodItem) :
    food_item_emissions it =
      (food_factors.lookup it.ftype).map (fun factor =>
        factor * it.amount * (if it.local_ then 0.8 else 1) *
        (if it.organic then 0.9 else 1)) := by
  unfold food_item_emissions
  cases h : food_factors.lookup it.ftype
  · rfl
  · simp only [Option.map_some]
    cases it.local_ <;> cases it.organic <;> simp

/-- Claim C5: each recognized food item contributes
factor x amount x 0.8 (if local) x 0.9 (if organic) and appears in the
tracked item list with its emissions rounded to 2 decimals; an
unrecognized item is skipped without error and changes nothing; the
single recorded composite entry carries as `total_emissions` the
rounded sum of the unrounded item emissions. -/
theorem track_food_spec (st : CarbonData) (now : Int) :
    (∀ items : List FoodItem, ∃ e : FoodEntry,
      (track_food st now items).entry = some e
      ∧ (track_food st now items).newData.food = st.food ++ [e]
      ∧ e.items = items.filterMap (fun it =>
          (food_factors.lookup it.ftype).map (fun factor =>
            ⟨it.ftype, it.amount, it.local_, it.organic,
             round2 (factor * it.amount * (if it.local_ then 0.8 else 1) *
               (if it.organic then 0.9 else 1))⟩))
      ∧ e.total_emissions = round2 ((items.filterMap (fun it =>
          (food_factors.lookup it.ftype).map (fun factor =>
            factor * it.amount * (if it.local_ then 0.8 else 1) *
            (if it.organic then 0.9 else 1)))).sum))
    ∧ (∀ xs ys : List FoodItem, ∀ it : FoodItem,
        food_factors.lookup it.ftype = none →
        track_food st now (xs ++ it :: ys) = track_food st now (xs ++ ys)) := by
  have hfe : food_item_emissions = fun it =>
      (food_factors.lookup it.ftype).map (fun factor =>
        factor * it.amount * (if it.local_ then 0.8 else 1) *
        (if it.organic then 0.9 else 1)) :=
    funext food_item_emissions_eq
  constructor
  · intro items
    refine ⟨_, rfl, rfl, ?_, ?_⟩
    · show List.filterMap _ items = _
      refine congrArg (fun f => List.filterMap f items) (funext fun it => ?_)
      rw [food_item_emissions_eq, Option.map_map]
      rfl
    · show round2 (List.filterMap food_item_emissions items).sum = _
      rw [hfe]
  · intro xs ys it h
    have h1 : food_item_emissions it = none := by
      unfold food_item_emissions
      rw [h]
      rfl
    unfold track_food
    simp [List.filterMap_append, List.filterMap_cons, h1]

theorem track_food_spec_witness :
    (∃ e : FoodEntry,
      (track_food emptyCarbonData 0
        ([⟨"vegetables", 1.2, true, true⟩] : List FoodItem)).entry = some e
      ∧ (track_food emptyCarbonData 0
          ([⟨"vegetables", 1.2, true, true⟩] : List FoodItem)).newData.food =
        emptyCarbonData.food ++ [e]
      ∧ e.items = ([⟨"vegetables", 1.2, true, true⟩] : List FoodItem).filterMap (fun it =>
          (food_factors.lookup it.ftype).map (fun factor =>
            (⟨it.ftype, it.amount, it.local_, it.organic,
             round2 (factor * it.amount * (if it.local_ then 0.8 else 1) *
               (if it.organic then 0.9 else 1))⟩ : TrackedFoodItem)))
      ∧ e.total_emissions = round2 ((([⟨"vegetables", 1.2, true, true⟩] : List FoodItem).filterMap
          (fun it => (food_factors.lookup it.ftype).map (fun factor =>
            factor * it.amount * (if it.local_ then 0.8 else 1) *
            (if it.organic then 0.9 else 1)))).sum))
    ∧ track_food emptyCarbonData 0 ([⟨"plutonium", 1, false, false⟩] : List FoodItem) =
        track_food emptyCarbonData 0 [] :=
  ⟨(track_food_spec emptyCarbonData 0).1 ([⟨"vegetables", 1.2, true, true⟩] : List FoodItem),
   (track_food_spec emptyCarbonData 0).2 [] [] (⟨"plutonium", 1, false, false⟩ : FoodItem) rfl⟩

/-- Claim C6: the purchase category is lower-cased and silently replaced
by household (factor 0.4) when unrecognized; the recorded emissions are
round(factor x price, 2), with an extra x0.7 when eco friendly. -/
theorem track_purchase_spec (st : CarbonData) (now : Int)
    (category description : String) (price : ℚ) :
    (∀ factor, purchase_factors.lookup (lowerString category) = some factor →
      ∀ eco : Bool, (track_purchase st now category description price eco).entry =
        some ⟨now, lowerString category, description, price, eco,
              round2 (if eco then factor * price * 0.7 else factor * price)⟩)
    ∧ (purchase_factors.lookup (lowerString category) = none →
      ∀ eco : Bool, (track_purchase st now category description price eco).entry =
        some ⟨now, "household", description, price, eco,
              round2 (if eco then 0.4 * price * 0.7 else 0.4 * price)⟩) := by
  constructor
  · intro factor hfac eco
    simp [track_purchase, normalize_purchase_category, hfac]
  · intro hnone eco
    have h04 : (purchase_factors.lookup "household").getD 0 = 0.4 := rfl
    simp [track_purchase, normalize_purchase_category, hnone, h04]

theorem track_purchase_spec_witness :
    ((track_purchase emptyCarbonData 0 "Electronics" "phone" 800 false).entry =
      some ⟨0, lowerString "Electronics", "phone", 800, false,
            round2 (if false then (0.7 : ℚ) * 800 * 0.7 else (0.7 : ℚ) * 800)⟩)
    ∧ ((track_purchase emptyCarbonData 0 "spaceship" "toy" 10 true).entry =
      some ⟨0, "household", "toy", 10, true,
            round2 (if true then (0.4 : ℚ) * 10 * 0.7 else (0.4 : ℚ) * 10)⟩) :=
  ⟨(track_purchase_spec emptyCarbonData 0 "Electronics" "phone" 800).1 0.7
     rfl false,
   (track_purchase_spec emptyCarbonData 0 "spaceship" "toy" 10).2 rfl true⟩

/-- Claim C7: any time period other than week, month or year makes
`get_carbon_footprint_summary` return an error message string (the left
summand) rather than a computed summary, and no fault is raised. -/
theorem summary_unsupported_period (st : CarbonData) (now : Int) (p : String)
    (h1 : p ≠ "week") (h2 : p ≠ "month") (h3 : p ≠ "year") :
    get_carbon_footprint_summary st now p =
      Sum.inl ("Unsupported time period: " ++ p ++
        ". Please use week, month, or year.") := by
  simp only [get_carbon_footprint_summary, period_days, h1, h2, h3, if_false]

theorem summary_unsupported_period_witness :
    get_carbon_footprint_summary emptyCarbonData 0 "decade" =
      Sum.inl ("Unsupported time period: " ++ "decade" ++
        ". Please use week, month, or year.") :=
  summary_unsupported_period emptyCarbonData 0 "decade"
    (by decide) (by decide) (by decide)

/-- Claim C8: every rejected user input (unrecognized transportation
mode, unrecognized energy type, unsupported energy unit, unsupported
time period) returns a descriptive message as a value, raises no fault,
appends no entry and performs no save: the record store is returned
unchanged. -/
theorem user_input_error_frame (st : CarbonData) (now : Int) :
    (∀ mode distance passengers, transportation_factors.lookup mode = none →
      track_transportation st now mode distance passengers =
        ⟨"Sorry, I do not recognize that as a transportation mode.",
         none, st, 0⟩)
    ∧ (∀ etype amount unit, energy_factors.lookup etype = none →
      track_energy_usage st now etype amount unit =
        ⟨"Sorry, I do not recognize that as an energy type.", none, st, 0⟩)
    ∧ (∀ etype amount unit, (energy_factors.lookup etype).isSome →
        unit ≠ "kWh" → ¬(unit = "therms" ∧ etype = "natural_gas") →
        track_energy_usage st now etype amount unit =
          ⟨"I currently only support kWh units.", none, st, 0⟩)
    ∧ (∀ p, period_days p = none →
      get_carbon_footprint_summary st now p =
        Sum.inl ("Unsupported time period: " ++ p ++
          ". Please use week, month, or year.")) := by
  refine ⟨fun mode distance passengers h => ?_, fun etype amount unit h => ?_,
    fun etype amount unit hsome hunit hconv => ?_, fun p h => ?_⟩
  · simp only [track_transportation, h]
  · simp only [track_energy_usage, h]
  · obtain ⟨factor, hfac⟩ := Option.isSome_iff_exists.mp hsome
    simp only [track_energy_usage, hfac, if_neg hconv, ne_eq, hunit,
      not_false_eq_true, if_pos]
  · simp only [get_carbon_footprint_summary, h]

theorem user_input_error_frame_witness :
    (track_transportation emptyCarbonData 0 "rocket" 10 1 =
      ⟨"Sorry, I do not recognize that as a transportation mode.",
       none, emptyCarbonData, 0⟩)
    ∧ (track_energy_usage emptyCarbonData 0 "plutonium" 5 "kWh" =
      ⟨"Sorry, I do not recognize that as an energy type.",
       none, emptyCarbonData, 0⟩)
    ∧ (track_energy_usage emptyCarbonData 0 "electricity" 5 "therms" =
      ⟨"I currently only support kWh units.", none, emptyCarbonData, 0⟩)
    ∧ (get_carbon_footprint_summary emptyCarbonData 0 "decade" =
      Sum.inl ("Unsupported time period: " ++ "decade" ++
        ". Please use week, month, or year.")) :=
  ⟨(user_input_error_frame emptyCarbonData 0).1 "rocket" 10 1 rfl,
   (user_input_error_frame emptyCarbonData 0).2.1 "plutonium" 5 "kWh" rfl,
   (user_input_error_frame emptyCarbonData 0).2.2.1 "electricity" 5 "therms"
     rfl (by decide) (by decide),
   (user_input_error_frame emptyCarbonData 0).2.2.2 "decade" rfl⟩

theorem update_assoc_keys {α : Type} (l : List (String × α)) (key : String)
    (val : α) :
    (update_assoc l key val).map Prod.fst = l.map Prod.fst := by
  induction l with
  | nil => rfl
  | cons kv rest ih =>
    simp only [update_assoc, List.map_cons] at ih ⊢
    rw [ih]
    by_cases h : kv.1 = key
    · rw [if_pos h]
      simp [h]
    · rw [if_neg h]

theorem lookup_isSome_of_mem_keys {α : Type} (l : List (String × α))
    (k : String) (h : k ∈ l.map Prod.fst) : (l.lookup k).isSome := by
  induction l with
  | nil => simp at h
  | cons kv rest ih =>
    simp only [List.map_cons, List.mem_cons] at h
    by_cases hk : k = kv.1
    · have hbeq : (k == kv.1) = true := beq_iff_eq.mpr hk
      simp [List.lookup, hbeq]
    · have hbeq : (k == kv.1) = false := beq_eq_false_iff_ne.mpr hk
      simp only [List.lookup, hbeq]
      exact ih (h.resolve_left hk)

theorem lookup_eq_none_of_not_mem_keys {α : Type} (l : List (String × α))
    (k : String) (h : k ∉ l.map Prod.fst) : l.lookup k = none := by
  induction l with
  | nil => rfl
  | cons kv rest ih =>
    simp only [List.map_cons, List.mem_cons] at h
    push_neg at h
    have hbeq : (k == kv.1) = false := beq_eq_false_iff_ne.mpr h.1
    simp only [List.lookup, hbeq]
    exact ih h.2

theorem lookup_cons_self {α : Type} (k : String) (v : α)
    (rest : List (String × α)) : ((k, v) :: rest).lookup k = some v := by
  rw [List.lookup_cons, beq_self_eq_true]

theorem lookup_cons_ne {α : Type} (k0 k : String) (v : α)
    (rest : List (String × α)) (h : k ≠ k0) :
    ((k0, v) :: rest).lookup k = rest.lookup k := by
  rw [List.lookup_cons, beq_eq_false_iff_ne.mpr h]

theorem update_assoc_cons_self {α : Type} (k0 key : String) (v0 val : α)
    (rest : List (String × α)) (hk : k0 = key) :
    update_assoc ((k0, v0) :: rest) key val =
      (key, val) :: update_assoc rest key val := by
  simp only [update_assoc, List.map_cons]
  rw [if_pos (show (k0, v0).1 = key from hk)]

theorem update_assoc_cons_ne {α : Type} (k0 key : String) (v0 val : α)
    (rest : List (String × α)) (hk : k0 ≠ key) :
    update_assoc ((k0, v0) :: rest) key val =
      (k0, v0) :: update_assoc rest key val := by
  simp only [update_assoc, List.map_cons]
  rw [if_neg (show ¬(k0, v0).1 = key from hk)]

theorem lookup_update_assoc_self {α : Type} (l : List (String × α))
    (key : String) (val : α) (h : (l.lookup key).isSome) :
    (update_assoc l key val).lookup key = some val := by
  induction l with
  | nil => simp at h
  | cons kv rest ih =>
    obtain ⟨k0, v0⟩ := kv
    by_cases hk : k0 = key
    · rw [update_assoc_cons_self k0 key v0 val rest hk, lookup_cons_self]
    · have hne : key ≠ k0 := fun e => hk e.symm
      have h' : (rest.lookup key).isSome := by
        rwa [lookup_cons_ne k0 key v0 rest hne] at h
      rw [update_assoc_cons_ne k0 key v0 val rest hk,
        lookup_cons_ne k0 key v0 _ hne]
      exact ih h'

theorem lookup_update_assoc_other {α : Type} (l : List (String × α))
    (key k : String) (val : α) (h : k ≠ key) :
    (update_assoc l key val).lookup k = l.lookup k := by
  induction l with
  | nil => rfl
  | cons kv rest ih =>
    obtain ⟨k0, v0⟩ := kv
    by_cases hk : k0 = key
    · rw [update_assoc_cons_self k0 key v0 val rest hk,
        lookup_cons_ne key k val _ h, ih,
        lookup_cons_ne k0 k v0 rest (fun e => h (e.trans hk))]
    · by_cases hkk : k = k0
      · subst hkk
        rw [update_assoc_cons_ne k key v0 val rest hk, lookup_cons_self,
          lookup_cons_self]
      · rw [update_assoc_cons_ne k0 key v0 val rest hk,
          lookup_cons_ne k0 k v0 _ hkk, ih, lookup_cons_ne k0 k v0 rest hkk]

theorem set_user_preferences_lookup_not_touched {α : Type}
    (updates : List (String × α)) (prefs : List (String × α)) (k : String)
    (hk : k ∉ updates.map Prod.fst) :
    (set_user_preferences prefs updates).lookup k = prefs.lookup k := by
  unfold set_user_preferences
  induction updates generalizing prefs with
  | nil => rfl
  | cons kv rest ih =>
    simp only [List.map_cons, List.mem_cons] at hk
    push_neg at hk
    rw [List.foldl_cons, ih _ hk.2]
    by_cases h : (prefs.lookup kv.1).isSome
    · rw [if_pos h, lookup_update_assoc_other _ _ _ _ hk.1]
    · rw [if_neg h]

theorem set_user_preferences_keys {α : Type}
    (prefs updates : List (String × α)) :
    (set_user_preferences prefs updates).map Prod.fst = prefs.map Prod.fst := by
  unfold set_user_preferences
  induction updates generalizing prefs with
  | nil => rfl
  | cons kv rest ih =>
    rw [List.foldl_cons, ih]
    by_cases h : (prefs.lookup kv.1).isSome
    · rw [if_pos h, update_assoc_keys]
    · rw [if_neg h]

theorem set_user_preferences_lookup_updated {α : Type}
    (updates : List (String × α)) (prefs : List (String × α))
    (k : String) (v : α) (hnodup : (updates.map Prod.fst).Nodup)
    (hmem : (k, v) ∈ updates) (hkey : k ∈ prefs.map Prod.fst) :
    (set_user_preferences prefs updates).lookup k = some v := by
  induction updates generalizing prefs with
  | nil => simp at hmem
  | cons kv rest ih =>
    have hstep : set_user_preferences prefs (kv :: rest) =
        set_user_preferences
          (if (prefs.lookup kv.1).isSome then update_assoc prefs kv.1 kv.2
           else prefs) rest := rfl
    simp only [List.map_cons, List.nodup_cons] at hnodup
    rcases List.mem_cons.mp hmem with heq | hrest
    · have hk1 : kv.1 = k := by rw [← heq]
      have hv2 : kv.2 = v := by rw [← heq]
      have hsome : (prefs.lookup kv.1).isSome := by
        rw [hk1]
        exact lookup_isSome_of_mem_keys prefs k hkey
      rw [hstep, if_pos hsome]
      have hnot : k ∉ rest.map Prod.fst := hk1 ▸ hnodup.1
      rw [set_user_preferences_lookup_not_touched _ _ _ hnot, hk1, hv2]
      exact lookup_update_assoc_self prefs k v (hk1 ▸ hsome)
    · rw [hstep]
      refine ih _ hnodup.2 hrest ?_
      by_cases h : (prefs.lookup kv.1).isSome
      · rw [if_pos h, update_assoc_keys]
        exact hkey
      · rw [if_neg h]
        exact hkey

/-- Claim C9: `set_user_preferences` assigns the supplied value to every
supplied key that already exists in the stored preferences, ignores
every key that does not, and leaves the set (indeed the sequence) of
preference keys exactly as it was. -/
theorem set_user_preferences_spec {α : Type}
    (prefs updates : List (String × α)) :
    ((set_user_preferences prefs updates).map Prod.fst = prefs.map Prod.fst)
    ∧ ((updates.map Prod.fst).Nodup →
       ∀ k v, (k, v) ∈ updates → k ∈ prefs.map Prod.fst →
         (set_user_preferences prefs updates).lookup k = some v)
    ∧ (∀ k, k ∉ prefs.map Prod.fst →
        (set_user_preferences prefs updates).lookup k = none) := by
  refine ⟨set_user_preferences_keys prefs updates,
    fun hnodup k v hmem hkey =>
      set_user_preferences_lookup_updated updates prefs k v hnodup hmem hkey,
    fun k hk => ?_⟩
  apply lookup_eq_none_of_not_mem_keys
  rw [set_user_preferences_keys]
  exact hk

theorem set_user_preferences_spec_witness :
    ((set_user_preferences
        [("diet_type", "omnivore"), ("home_type", "apartment")]
        [("diet_type", "vegan"), ("favorite_color", "green")]).map Prod.fst =
      [("diet_type", "omnivore"), ("home_type", "apartment")].map Prod.fst)
    ∧ ((set_user_preferences
        [("diet_type", "omnivore"), ("home_type", "apartment")]
        [("diet_type", "vegan"), ("favorite_color", "green")]).lookup
          "diet_type" = some "vegan")
    ∧ ((set_user_preferences
        [("diet_type", "omnivore"), ("home_type", "apartment")]
        [("diet_type", "vegan"), ("favorite_color", "green")]).lookup
          "favorite_color" = none) :=
  ⟨(set_user_preferences_spec
      [("diet_type", "omnivore"), ("home_type", "apartment")]
      [("diet_type", "vegan"), ("favorite_color", "green")]).1,
   (set_user_preferences_spec
      [("diet_type", "omnivore"), ("home_type", "apartment")]
      [("diet_type", "vegan"), ("favorite_color", "green")]).2.1
     (by decide) "diet_type" "vegan" (by decide) (by decide),
   (set_user_preferences_spec
      [("diet_type", "omnivore"), ("home_type", "apartment")]
      [("diet_type", "vegan"), ("favorite_color", "green")]).2.2
     "favorite_color" (by decide)⟩

theorem tipsOf_eq_of_lookup {c : String} {tips : List String}
    (h : eco_tips.lookup c = some tips) : tipsOf c = tips := by
  unfold tipsOf
  rw [h]
  rfl

theorem getD_mod_mem {l : List String} (i : Nat) (d : String)
    (h : l.length ≠ 0) : l.getD (i % l.length) d ∈ l := by
  have hlt : i % l.length < l.length := Nat.mod_lt _ (Nat.pos_of_ne_zero h)
  rw [List.getD_eq_getElem?_getD, List.getElem?_eq_getElem hlt, Option.getD_some]
  exact List.getElem_mem hlt

theorem prioritized_tips_invariant (allowed : List String) (count : Nat)
    (rng : Nat → Nat) :
    ∀ (cats : List String) (k : Nat) (acc : List String),
      acc.Nodup →
      ((cats.map tipsOf).flatten).Nodup →
      (∀ t ∈ (cats.map tipsOf).flatten, t ∉ acc) →
      (prioritized_tips cats allowed count rng k acc).1.Nodup
      ∧ ∀ t ∈ (prioritized_tips cats allowed count rng k acc).1,
          t ∈ acc ∨ t ∈ (cats.map tipsOf).flatten := by
  intro cats
  induction cats with
  | nil =>
    intro k acc ha _ _
    exact ⟨ha, fun t ht => Or.inl ht⟩
  | cons c rest ih =>
    intro k acc ha hn hd
    rw [List.map_cons, List.flatten_cons] at hn hd
    have hnodupR : ((rest.map tipsOf).flatten).Nodup :=
      (List.nodup_append.mp hn).2.1
    have hdisj : (tipsOf c).Disjoint ((rest.map tipsOf).flatten) :=
      (List.nodup_append.mp hn).2.2
    have hdC : ∀ t ∈ tipsOf c, t ∉ acc :=
      fun t ht => hd t (List.mem_append_left _ ht)
    have hdR : ∀ t ∈ (rest.map tipsOf).flatten, t ∉ acc :=
      fun t ht => hd t (List.mem_append_right _ ht)
    cases hl : eco_tips.lookup c with
    | none =>
      simp only [prioritized_tips, hl, List.map_cons, List.flatten_cons]
      obtain ⟨h1, h2⟩ := ih k acc ha hnodupR hdR
      exact ⟨h1, fun t ht => (h2 t ht).imp_right (List.mem_append_right _)⟩
    | some tips =>
      have htips : tipsOf c = tips := tipsOf_eq_of_lookup hl
      simp only [prioritized_tips, hl, List.map_cons, List.flatten_cons]
      by_cases hc : c ∈ allowed
      · rw [if_pos hc]
        by_cases hlen : tips.length ≠ 0
        · rw [if_pos hlen]
          have htmem : tips.getD (rng k % tips.length) "" ∈ tipsOf c := by
            rw [htips]
            exact getD_mod_mem _ _ hlen
          have hacc2 : (acc ++ [tips.getD (rng k % tips.length) ""]).Nodup := by
            rw [List.nodup_append]
            refine ⟨ha, List.nodup_singleton _, fun a haa hab => ?_⟩
            rw [List.mem_singleton] at hab
            subst hab
            exact hdC _ htmem haa
          by_cases hcnt :
              count ≤ (acc ++ [tips.getD (rng k % tips.length) ""]).length
          · rw [if_pos hcnt]
            refine ⟨hacc2, fun t ht => ?_⟩
            rcases List.mem_append.mp ht with h1 | h2
            · exact Or.inl h1
            · rw [List.mem_singleton] at h2
              subst h2
              exact Or.inr (List.mem_append_left _ htmem)
          · rw [if_neg hcnt]
            have hd2 : ∀ t ∈ (rest.map tipsOf).flatten,
                t ∉ acc ++ [tips.getD (rng k % tips.length) ""] := by
              intro t ht hmem
              rcases List.mem_append.mp hmem with h1 | h2
              · exact hdR t ht h1
              · rw [List.mem_singleton] at h2
                subst h2
                exact hdisj htmem ht
            obtain ⟨h1, h2⟩ := ih (k + 1) _ hacc2 hnodupR hd2
            refine ⟨h1, fun t ht => ?_⟩
            rcases h2 t ht with hI | hII
            · rcases List.mem_append.mp hI with hA | hB
              · exact Or.inl hA
              · rw [List.mem_singleton] at hB
                subst hB
                exact Or.inr (List.mem_append_left _ htmem)
            · exact Or.inr (List.mem_append_right _ hII)
        · rw [if_neg hlen]
          obtain ⟨h1, h2⟩ := ih k acc ha hnodupR hdR
          exact ⟨h1, fun t ht => (h2 t ht).imp_right (List.mem_append_right _)⟩
      · rw [if_neg hc]
        obtain ⟨h1, h2⟩ := ih k acc ha hnodupR hdR
        exact ⟨h1, fun t ht => (h2 t ht).imp_right (List.mem_append_right _)⟩

theorem fill_tips_invariant (allowed : List String) (count : Nat)
    (rng : Nat → Nat) :
    ∀ (fuel k : Nat) (acc : List String), acc.Nodup →
      (fill_tips allowed count rng fuel k acc).Nodup
      ∧ ∀ t ∈ fill_tips allowed count rng fuel k acc,
          t ∈ acc ∨ t ∈ (allowed.map tipsOf).flatten := by
  intro fuel
  induction fuel with
  | zero =>
    intro k acc ha
    exact ⟨ha, fun t ht => Or.inl ht⟩
  | succ fuel ih =>
    intro k acc ha
    simp only [fill_tips]
    by_cases hcnt : acc.length < count
    · rw [if_pos hcnt]
      by_cases hlen :
          (tipsOf (allowed.getD (rng k % allowed.length) "")).length ≠ 0
      · rw [if_pos hlen]
        have htmem : (tipsOf (allowed.getD (rng k % allowed.length) "")).getD
            (rng (k + 1) %
              (tipsOf (allowed.getD (rng k % allowed.length) "")).length) ""
            ∈ tipsOf (allowed.getD (rng k % allowed.length) "") :=
          getD_mod_mem _ _ hlen
        have hcmem : allowed.getD (rng k % allowed.length) "" ∈ allowed := by
          rcases Nat.eq_zero_or_pos allowed.length with hA | hA
          · exfalso
            apply hlen
            have hallowed : allowed = [] := List.length_eq_zero.mp hA
            rw [hallowed]
            rfl
          · exact getD_mod_mem _ _ (Nat.pos_iff_ne_zero.mp hA)
        have hflat : (tipsOf (allowed.getD (rng k % allowed.length) "")).getD
            (rng (k + 1) %
              (tipsOf (allowed.getD (rng k % allowed.length) "")).length) ""
            ∈ (allowed.map tipsOf).flatten :=
          List.mem_flatten.mpr
            ⟨tipsOf (allowed.getD (rng k % allowed.length) ""),
             List.mem_map_of_mem _ hcmem, htmem⟩
        by_cases hmem : (tipsOf (allowed.getD (rng k % allowed.length) "")).getD
            (rng (k + 1) %
              (tipsOf (allowed.getD (rng k % allowed.length) "")).length) ""
            ∈ acc
        · rw [if_pos hmem]
          exact ih (k + 2) acc ha
        · rw [if_neg hmem]
          have hacc2 : (acc ++
              [(tipsOf (allowed.getD (rng k % allowed.length) "")).getD
                (rng (k + 1) %
                  (tipsOf (allowed.getD (rng k % allowed.length) "")).length)
                ""]).Nodup := by
            rw [List.nodup_append]
            refine ⟨ha, List.nodup_singleton _, fun a haa hab => ?_⟩
            rw [List.mem_singleton] at hab
            subst hab
            exact hmem haa
          obtain ⟨h1, h2⟩ := ih (k + 2) _ hacc2
          refine ⟨h1, fun t ht => ?_⟩
          rcases h2 t ht with hI | hII
          · rcases List.mem_append.mp hI with hA | hB
            · exact Or.inl hA
            · rw [List.mem_singleton] at hB
              subst hB
              exact Or.inr hflat
          · exact Or.inr hII
      · rw [if_neg hlen]
        exact ih (k + 1) acc ha
    · rw [if_neg hcnt]
      exact ⟨ha, fun t ht => Or.inl ht⟩

/-- The 20 tip strings of the static database are pairwise distinct. -/
theorem eco_tip_strings_nodup :
    (((eco_tips.map Prod.fst).map tipsOf).flatten).Nodup := by decide

/-- The categories ranked by `get_personalized_tips` are a permutation
of the four tracked category names. -/
theorem sorted_categories_perm (st : CarbonData) (now : Int) :
    List.Perm (sorted_categories st now) (eco_tips.map Prod.fst) := by
  have h := List.mergeSort_perm (month_footprint_pairs st now)
    (fun a b => decide (b.2 ≤ a.2))
  have h2 := h.map Prod.fst
  have h3 : (month_footprint_pairs st now).map Prod.fst =
      eco_tips.map Prod.fst := rfl
  unfold sorted_categories
  rw [← h3]
  exact h2

/-- Claim C10: every list `get_personalized_tips` produces is free of
duplicate tip strings, for every store, filter, count, randomness
stream and number of fill iterations: the prioritized phase draws at
most one tip per distinct category from pairwise-disjoint pools, and
the fill phase appends a tip only when it is not yet selected. -/
theorem get_personalized_tips_nodup (st : CarbonData) (now : Int)
    (category : Option String) (count : Nat) (rng : Nat → Nat) (fuel : Nat) :
    (get_personalized_tips st now category count rng fuel).Nodup := by
  have hflat : (((sorted_categories st now).map tipsOf).flatten).Nodup :=
    (((sorted_categories_perm st now).map tipsOf).flatten).nodup_iff.mpr
      eco_tip_strings_nodup
  cases category with
  | none =>
    simp only [get_personalized_tips]
    exact (fill_tips_invariant (eco_tips.map Prod.fst) count rng fuel _ _
      (prioritized_tips_invariant (eco_tips.map Prod.fst) count rng
        (sorted_categories st now) 0 [] List.nodup_nil hflat
        (fun t _ ht => absurd ht (List.not_mem_nil t))).1).1
  | some c =>
    simp only [get_personalized_tips]
    by_cases h : (eco_tips.lookup c).isNone = true
    · rw [if_pos h]
      exact List.nodup_singleton _
    · rw [if_neg h]
      exact (fill_tips_invariant [c] count rng fuel _ _
        (prioritized_tips_invariant [c] count rng
          (sorted_categories st now) 0 [] List.nodup_nil hflat
          (fun t _ ht => absurd ht (List.not_mem_nil t))).1).1

/-- Claim C2 fails on the code: with `count = 21` and no category
filter, the tip universe holds only 20 distinct strings, so the list of
selected tips never reaches 21 elements no matter how many iterations
of the fill loop run and whatever the randomness produces.  The
`while len(selected_tips) < count` loop of the source therefore never
exits: the call does not terminate, rather than returning at most
`count` tips. -/
theorem tips_count21_never_fills (st : CarbonData) (now : Int)
    (rng : Nat → Nat) (fuel : Nat) :
    (get_personalized_tips st now none 21 rng fuel).length < 21
    ∧ (((eco_tips.map Prod.fst).map tipsOf).flatten).length = 20 := by
  have hflatperm := ((sorted_categories_perm st now).map tipsOf).flatten
  have hflat : (((sorted_categories st now).map tipsOf).flatten).Nodup :=
    hflatperm.nodup_iff.mpr eco_tip_strings_nodup
  obtain ⟨hnd, hsub⟩ := prioritized_tips_invariant (eco_tips.map Prod.fst) 21
    rng (sorted_categories st now) 0 [] List.nodup_nil hflat
    (fun t _ ht => absurd ht (List.not_mem_nil t))
  obtain ⟨hnd2, hsub2⟩ := fill_tips_invariant (eco_tips.map Prod.fst) 21 rng
    fuel
    (prioritized_tips (sorted_categories st now) (eco_tips.map Prod.fst) 21
      rng 0 []).2
    (prioritized_tips (sorted_categories st now) (eco_tips.map Prod.fst) 21
      rng 0 []).1
    hnd
  refine ⟨?_, rfl⟩
  simp only [get_personalized_tips]
  have hsubset : fill_tips (eco_tips.map Prod.fst) 21 rng fuel
      (prioritized_tips (sorted_categories st now) (eco_tips.map Prod.fst) 21
        rng 0 []).2
      (prioritized_tips (sorted_categories st now) (eco_tips.map Prod.fst) 21
        rng 0 []).1
      ⊆ ((eco_tips.map Prod.fst).map tipsOf).flatten := by
    intro t ht
    rcases hsub2 t ht with h1 | h2
    · rcases hsub t h1 with h3 | h4
      · exact absurd h3 (List.not_mem_nil t)
      · exact hflatperm.mem_iff.mp h4
    · exact h2
  have hle := (List.subperm_of_subset hnd2 hsubset).length_le
  have h20 : (((eco_tips.map Prod.fst).map tipsOf).flatten).length = 20 := rfl
  rw [h20] at hle
  exact Nat.lt_of_le_of_lt hle (by norm_num)

end EnvironmentalAI
